import Mathlib

set_option maxRecDepth 10000

/-!
Shallow embedding of `src/metrics_collector.py` (class `MetricsCollector`)
of the fraud-detection MLOps repository, together with theorems settling
the specification claims about it.

Modelling conventions:
* Python `float` values that the collector stores and compares are modelled
  as `ℚ` (all constants in the source are decimal literals, exact in `ℚ`);
  the real-valued KL-divergence of the drift estimator is modelled in `ℝ`.
* `datetime.now()` timestamps are passed in as an explicit `Nat` parameter.
* Python dicts that preserve insertion order (`defaultdict(list)`,
  `namespaced_metrics`) are modelled as association lists in key-insertion
  order.
* A Python exception escaping a statement is modelled with `Except`:
  `(Except.error e, s)` returns the exception together with the state as
  mutated so far.
-/

namespace FraudMetrics

/-- Embeds the dataclass `MetricData` (metrics_collector.py, lines 19-26):
structured metric data with name, value, unit, timestamp and dimensions. -/
structure MetricData where
  name : String
  value : ℚ
  unit : String
  timestamp : Nat
  dimensions : List (String × String)
deriving DecidableEq

/-- The in-memory metric buffer `self.metric_buffer = defaultdict(list)`:
an association list from metric name to the observations recorded under
that name, in key-insertion order. -/
abbrev Buffer := List (String × List MetricData)

/-- Appending to `self.metric_buffer[name]`: if the key exists its list is
extended at the end, otherwise the key is inserted at the end of the dict
(the `defaultdict` behaviour). -/
def bufAppend (buf : Buffer) (n : String) (m : MetricData) : Buffer :=
  match buf with
  | [] => [(n, [m])]
  | (k, l) :: rest =>
      if k = n then (k, l ++ [m]) :: rest else (k, l) :: bufAppend rest n m

/-- Lookup of `buf[n]` as a list of observations (empty when the key is absent). -/
def lookupBuf (buf : Buffer) (n : String) : List MetricData :=
  match buf with
  | [] => []
  | (k, l) :: rest => if k = n then l else lookupBuf rest n

/-- The last `m` elements of a list (retention of a deque with maxlen `m`). -/
def takeLast (m : Nat) (l : List α) : List α := l.drop (l.length - m)

/-- Appending one element to a `collections.deque` with `maxlen = m`:
the oldest element is evicted once the deque is at capacity. -/
def pushMax (m : Nat) (xs : List ℚ) (x : ℚ) : List ℚ := takeLast m (xs ++ [x])

/-- The mutable state of a `MetricsCollector` instance
(metrics_collector.py, lines 32-43): the metric buffer and the two rolling
business-metric series fraud_probabilities and confidences inside
`business_metrics`, each a `deque(maxlen=1000)`.
`drift_window_size = 100` is a constant, kept at use sites. -/
structure CollectorState where
  metric_buffer : Buffer
  fraud_probabilities : List ℚ
  confidences : List ℚ
deriving DecidableEq

/-- The freshly constructed collector: empty buffer and empty series. -/
def initState : CollectorState := ⟨[], [], []⟩

/-- Embeds `MetricsCollector._record_metric` (lines 371-383): build a `MetricData`
and append it to `self.metric_buffer[name]`. -/
def recordMetric (s : CollectorState) (name : String) (value : ℚ)
    (unit : String) (dimensions : List (String × String)) (ts : Nat) :
    CollectorState :=
  { s with metric_buffer := bufAppend s.metric_buffer name ⟨name, value, unit, ts, dimensions⟩ }

/-- Python `str.startswith`, on the underlying character lists. -/
def strStarts (s pre : String) : Bool := pre.data.isPrefixOf s.data

/-- Python `pat in s` substring containment, on character lists. -/
def containsSub (s pat : String) : Bool :=
  (List.range (s.data.length + 1)).any (fun i => pat.data.isPrefixOf (s.data.drop i))

/-- Embeds `MetricsCollector._get_metric_namespace` (lines 485-499): the if/elif
chain mapping a metric name to its CloudWatch namespace. -/
def getMetricNamespace (metricName : String) : String :=
  if strStarts metricName "api_" then "FraudDetection/API"
  else if strStarts metricName "prediction_" || strStarts metricName "fraud_" then
    "FraudDetection/ML"
  else if strStarts metricName "business_" || strStarts metricName "claims_" then
    "FraudDetection/Business"
  else if strStarts metricName "cost_" || containsSub metricName "cost" then
    "FraudDetection/Cost"
  else if strStarts metricName "security_" then "FraudDetection/Security"
  else "FraudDetection/Custom"

/-- The reading the spec gives of the classifier: an ordered table of
(predicate, namespace) rules, first match wins, `Custom` as the default.
This definition follows the words of the specification, for comparison with
`getMetricNamespace` which follows the source. -/
def nsRules : List ((String → Bool) × String) :=
  [ (fun n => strStarts n "api_", "FraudDetection/API"),
    (fun n => strStarts n "prediction_" || strStarts n "fraud_", "FraudDetection/ML"),
    (fun n => strStarts n "business_" || strStarts n "claims_", "FraudDetection/Business"),
    (fun n => strStarts n "cost_" || containsSub n "cost", "FraudDetection/Cost"),
    (fun n => strStarts n "security_", "FraudDetection/Security") ]

/-- First-match-wins evaluation of `nsRules` (spec-side definition). -/
def firstMatchNs (n : String) : String :=
  ((nsRules.find? (fun r => r.1 n)).map Prod.snd).getD "FraudDetection/Custom"

/-- A Python exception class relevant to the collector. -/
inductive PyErr where
  | valueError
  | nameError
deriving DecidableEq

/-- A Python value stored in the `claim_data` dict: either a number
(anything `float()` converts, including numeric strings — only its numeric
value matters downstream) or a value on which `float()` raises
`ValueError`/`TypeError` (non-numeric strings, `None`, lists, ...). -/
inductive PyVal where
  | num (q : ℚ)
  | nonNum (tag : String)
deriving DecidableEq

/-- Python `float(v)` as used on feature values (line 398). -/
def pyFloat : PyVal → Except PyErr ℚ
  | .num q => .ok q
  | .nonNum _ => .error .valueError

/-- The fields of the `prediction_data` dict that
`collect_prediction_metrics` reads via `.get` (absent keys fall back to the
defaults of the source at the use sites). -/
structure PredData where
  risk_level : Option String
  model_version : Option String
  fraud_probability : Option ℚ
  confidence : Option ℚ

/-- Embeds `key_features` (lines 389-392): the features monitored for drift. -/
def keyFeatures : List String :=
  ["months_as_customer", "age", "total_claim_amount", "claim_ratio", "incident_severity"]

/-- The loop body of `_collect_feature_metrics`: walk `key_features` in
order; for each feature present in `claim_data`, record
`feature_<name> = float(value)`. A `float()` failure escapes immediately
(there is no try/except around this loop), leaving the metrics recorded so
far in the buffer. -/
def featureLoop (claimData : List (String × PyVal)) (ts : Nat) :
    List String → CollectorState → Except PyErr Unit × CollectorState
  | [], s => (.ok (), s)
  | f :: fs, s =>
      match claimData.lookup f with
      | none => featureLoop claimData ts fs s
      | some v =>
          match pyFloat v with
          | .error e => (.error e, s)
          | .ok q =>
              featureLoop claimData ts fs
                (recordMetric s ("feature_" ++ f) q "None" [("FeatureType", "input")] ts)

/-- Embeds `MetricsCollector._collect_feature_metrics` (lines 385-402). -/
def collectFeatureMetrics (s : CollectorState) (claimData : List (String × PyVal))
    (ts : Nat) : Except PyErr Unit × CollectorState :=
  featureLoop claimData ts keyFeatures s

/-- Embeds `MetricsCollector.collect_prediction_metrics` (lines 45-93): record the
processing-time, fraud-probability and confidence metrics, append to the
two rolling series, then collect the feature-level metrics. The method has
no exception handler, so a failure in the feature loop escapes to the
caller with the earlier mutations retained. -/
def collectPredictionMetrics (s : CollectorState) (predictionData : PredData)
    (processingTime : ℚ) (claimData : List (String × PyVal)) (ts : Nat) :
    Except PyErr Unit × CollectorState :=
  let riskLevel := predictionData.risk_level.getD "UNKNOWN"
  let modelVersion := predictionData.model_version.getD "1.0"
  let fraudProb := predictionData.fraud_probability.getD 0
  let confidence := predictionData.confidence.getD 0
  let s1 := recordMetric s "prediction_processing_time" processingTime "Milliseconds"
    [("RiskLevel", riskLevel), ("ModelVersion", modelVersion)] ts
  let s2 := recordMetric s1 "fraud_probability" fraudProb "None"
    [("RiskLevel", riskLevel)] ts
  let s3 := recordMetric s2 "model_confidence" confidence "None"
    [("ModelVersion", modelVersion)] ts
  let s4 := { s3 with fraud_probabilities := pushMax 1000 s3.fraud_probabilities fraudProb }
  let s5 := { s4 with confidences := pushMax 1000 s4.confidences confidence }
  collectFeatureMetrics s5 claimData ts

/-- All buffered observations in flush traversal order:
`for metrics_list in self.metric_buffer.values(): for metric in metrics_list`
(lines 335-336). -/
def bufferedMetrics (s : CollectorState) : List MetricData :=
  (s.metric_buffer.map Prod.snd).flatten

/-- Fuel-indexed recursion for `firstOccur` (the fuel only bounds the
recursion depth; it is always instantiated with the length of the list, which
suffices because each step consumes at least the head). -/
def firstOccurGo : Nat → List String → List String
  | _, [] => []
  | 0, _ :: _ => []
  | fuel + 1, a :: l => a :: firstOccurGo fuel (l.filter (fun b => b ≠ a))

/-- Keys of a list in order of first occurrence — the insertion order of
`namespaced_metrics = defaultdict(list)` while traversing the buffer. -/
def firstOccur (l : List String) : List String := firstOccurGo l.length l

/-- Fuel-indexed recursion for `chunks20` (fuel bounds the recursion depth
and is always instantiated with the length of the list). -/
def chunks20Go : Nat → List MetricData → List (List MetricData)
  | _, [] => []
  | 0, _ :: _ => []
  | fuel + 1, a :: l => ((a :: l).take 20) :: chunks20Go fuel ((a :: l).drop 20)

/-- Embeds the `metrics[i:i+20]` batching (line 356): split a list into consecutive
chunks of at most 20 elements. -/
def chunks20 (l : List MetricData) : List (List MetricData) := chunks20Go l.length l

/-- The sequence of `put_metric_data` calls a flush issues when no call
fails: namespaces in first-encounter order, and within each namespace the
observations classified to it, in buffer order, in chunks of 20
(lines 332-362). -/
def allCalls (s : CollectorState) : List (String × List MetricData) :=
  let buffered := bufferedMetrics s
  (firstOccur (buffered.map (fun m => getMetricNamespace m.name))).flatMap
    (fun ns =>
      (chunks20 (buffered.filter (fun m => getMetricNamespace m.name = ns))).map
        (fun batch => (ns, batch)))

/-- Issue the calls in order against a sink; a sink returning `false`
models `put_metric_data` raising, which aborts the loop. Returns the calls
actually attempted and whether all of them succeeded. -/
def attemptCalls (sink : String → List MetricData → Bool) :
    List (String × List MetricData) → List (String × List MetricData) × Bool
  | [] => ([], true)
  | c :: cs =>
      if sink c.1 c.2 then
        let r := attemptCalls sink cs
        (c :: r.1, r.2)
      else ([c], false)

/-- Embeds `MetricsCollector.flush_metrics` (lines 325-369): early return on an
empty buffer; otherwise group by namespace and send batches inside a
try/except. `self.metric_buffer.clear()` sits inside the try after the
send loop, so the buffer is cleared exactly when every call succeeded; a
sink failure jumps to the except handler (which only logs) with the buffer
untouched. Returns the new state and the calls attempted. -/
def flushMetrics (sink : String → List MetricData → Bool) (s : CollectorState) :
    CollectorState × List (String × List MetricData) :=
  if s.metric_buffer.isEmpty then (s, [])
  else
    let r := attemptCalls sink (allCalls s)
    (if r.2 then { s with metric_buffer := [] } else s, r.1)

/-- Embeds `MetricsCollector._check_business_anomalies` (lines 439-473): record a
`business_anomaly_detected` observation when the fraud rate leaves
[0.05, 0.25] (severity HIGH above 0.4, else MEDIUM) and another when the
average confidence is below 0.6. `avg_fraud_prob` is a parameter the body
never reads. -/
def checkBusinessAnomalies (s : CollectorState) (fraudRate avgFraudProb avgConfidence : ℚ)
    (ts : Nat) : CollectorState :=
  let s1 :=
    if ¬((0.05 : ℚ) ≤ fraudRate ∧ fraudRate ≤ (0.25 : ℚ)) then
      recordMetric s "business_anomaly_detected" 1 "Count"
        [("AnomalyType", "FraudRate"),
         ("Severity", if fraudRate > (0.4 : ℚ) then "HIGH" else "MEDIUM")] ts
    else s
  if avgConfidence < (0.6 : ℚ) then
    recordMetric s1 "business_anomaly_detected" 1 "Count"
      [("AnomalyType", "LowConfidence"), ("Severity", "MEDIUM")] ts
  else s1

/-- A prediction record as read back from the store, with the fields
`collect_business_metrics` accesses via `.get`. -/
structure PredRecord where
  is_fraud : Nat
  risk_level : String
  fraud_probability : ℚ
  confidence : ℚ

/-- Embeds `MetricsCollector._get_recent_predictions` (lines 404-409): the body is
`return []` — the simplified implementation never queries DynamoDB. -/
def getRecentPredictions (startTime endTime : Nat) : List PredRecord := []

/-- Embeds `MetricsCollector.collect_business_metrics` (lines 150-195): query
recent predictions, return early (warning only) when none; otherwise
compute the business KPIs, record five metrics and run the anomaly check.
The boolean result records whether `_check_business_anomalies` was
invoked. -/
def collectBusinessMetrics (s : CollectorState) (timePeriodHours : Int) (ts : Nat) :
    CollectorState × Bool :=
  let predictions := getRecentPredictions (ts - timePeriodHours.toNat * 3600) ts
  if predictions.isEmpty then (s, false)
  else
    let totalClaims := predictions.length
    let fraudClaims := predictions.countP (fun p => p.is_fraud = 1)
    let highRiskClaims :=
      predictions.countP (fun p => p.risk_level = "HIGH" ∨ p.risk_level = "CRITICAL")
    let fraudRate : ℚ := if totalClaims > 0 then (fraudClaims : ℚ) / totalClaims else 0
    let highRiskRate : ℚ := if totalClaims > 0 then (highRiskClaims : ℚ) / totalClaims else 0
    let avgFraudProb : ℚ := (predictions.map (fun p => p.fraud_probability)).sum / totalClaims
    let avgConfidence : ℚ := (predictions.map (fun p => p.confidence)).sum / totalClaims
    let dims := [("TimePeriod", toString timePeriodHours ++ "h")]
    let s1 := recordMetric s "claims_processed_total" (totalClaims : ℚ) "Count" dims ts
    let s2 := recordMetric s1 "fraud_detection_rate" (fraudRate * 100) "Percent" dims ts
    let s3 := recordMetric s2 "high_risk_claims_rate" (highRiskRate * 100) "Percent" dims ts
    let s4 := recordMetric s3 "average_fraud_probability" avgFraudProb "None" dims ts
    let s5 := recordMetric s4 "average_model_confidence" avgConfidence "None" dims ts
    (checkBusinessAnomalies s5 fraudRate avgFraudProb avgConfidence ts, true)

/-- The names bound at module level of metrics_collector.py before
`collect_cost_metrics` runs (import statements, lines 6-14, and the
module-level bindings): `os` is not among them. -/
def moduleGlobals : List String :=
  ["boto3", "time", "json", "logging", "datetime", "timedelta",
   "Dict", "List", "Any", "Optional", "dataclass", "np",
   "defaultdict", "deque", "logger", "MetricData", "MetricsCollector"]

/-- Evaluating a bare name in the module: `NameError` when it is not
bound. -/
def resolveGlobal (n : String) : Except PyErr Unit :=
  if moduleGlobals.contains n then .ok () else .error .nameError

/-- What `describe_endpoint` would report for the production variant. -/
structure EndpointInfo where
  instance_type : String
  instance_count : Nat

/-- Embeds `instance_costs` (lines 259-264). -/
def instanceCosts : List (String × ℚ) :=
  [("ml.t2.medium", 0.065), ("ml.m5.large", 0.134),
   ("ml.m5.xlarge", 0.269), ("ml.m5.2xlarge", 0.538)]

/-- Embeds `MetricsCollector._get_hourly_prediction_count` (lines 475-478). -/
def getHourlyPredictionCount (s : CollectorState) : Nat :=
  s.fraud_probabilities.length

/-- The try-block of `collect_cost_metrics` (lines 250-291). Its first
statement evaluates `os.environ.get(...)`, and the name `os` is unbound in
the module, so the block raises `NameError` before anything else runs;
the rest of the body (cost computation and the four metric records) is
modelled after it, parameterized by the endpoint description the
`describe_endpoint` call would have produced. -/
def costBody (s : CollectorState) (endpoint : EndpointInfo) (ts : Nat) :
    Except PyErr CollectorState := do
  let _ ← resolveGlobal "os"
  let instanceType := endpoint.instance_type
  let instanceCount := endpoint.instance_count
  let hourlyCost : ℚ := ((instanceCosts.lookup instanceType).getD 0.134) * instanceCount
  let hourlyPredictions := getHourlyPredictionCount s
  let costPerPrediction : ℚ :=
    if hourlyPredictions > 0 then hourlyCost / hourlyPredictions else 0
  let predictionsPerDollar : ℚ :=
    if hourlyCost > 0 then (hourlyPredictions : ℚ) / hourlyCost else 0
  let dims := [("InstanceType", instanceType)]
  let s1 := recordMetric s "sagemaker_hourly_cost" hourlyCost "None" dims ts
  let s2 := recordMetric s1 "cost_per_prediction" costPerPrediction "None" dims ts
  let s3 := recordMetric s2 "predictions_per_dollar" predictionsPerDollar "Count" dims ts
  let s4 := recordMetric s3 "active_instances" (instanceCount : ℚ) "Count" dims ts
  return s4

/-- Embeds `MetricsCollector.collect_cost_metrics` (lines 244-294): the try-block
wrapped in `except Exception: logger.error(...)` — any exception (the
`NameError` included) is swallowed, leaving the state unchanged. -/
def collectCostMetrics (s : CollectorState) (endpoint : EndpointInfo) (ts : Nat) :
    CollectorState :=
  match costBody s endpoint ts with
  | .ok s1 => s1
  | .error _ => s

/-- Membership test of value `x` in histogram bin `i` of
`np.histogram(data, bins=np.linspace(0, 1, 11))`: bins `0..8` are
half-open `[i/10, (i+1)/10)`, the last bin `9` is closed `[9/10, 1]`. -/
def binPred (i : Nat) (x : ℚ) : Bool :=
  decide (mkRat i 10 ≤ x) &&
    (if i = 9 then decide (x ≤ 1) else decide (x < mkRat (i + 1) 10))

/-- Raw bin counts of `np.histogram(data, bins=np.linspace(0, 1, 11))`
(values outside [0, 1] fall in no bin and are dropped). -/
def histogramCounts (data : List ℚ) : List Nat :=
  (List.range 10).map (fun i => data.countP (binPred i))

/-- The smoothing constant `epsilon = 1e-10` (line 422). -/
def driftEpsilon : ℚ := 1e-10

/-- The density histogram of a sample with `epsilon` added to every bin
(lines 417-424): each count becomes `count / (total * binwidth)` with
binwidth 1/10, plus the smoothing constant. -/
def smoothedHist (data : List ℚ) : List ℚ :=
  (histogramCounts data).map
    (fun (k : ℕ) => (k : ℚ) / (((histogramCounts data).sum : ℚ) * (1 / 10)) + driftEpsilon)

/-- The smoothed, re-normalized histogram of a sample (lines 417-428):
the density histogram plus `epsilon`, divided by its sum. `none` models
the NaN vector numpy produces when the total count is zero — `density=True`
then divides by zero, which warns rather than raises, so the except
handler is not reached. -/
def normHist (data : List ℚ) : Option (List ℚ) :=
  if (histogramCounts data).sum = 0 then none
  else some ((smoothedHist data).map (fun x => x / (smoothedHist data).sum))

/-- The KL-divergence sum `np.sum(current_hist * np.log(current_hist /
baseline_hist))` (line 431), over the reals. -/
noncomputable def klDiv (c b : List ℚ) : ℝ :=
  (List.zipWith (fun (x y : ℚ) => (x : ℝ) * Real.log ((x : ℝ) / (y : ℝ))) c b).sum

/-- Embeds `MetricsCollector._calculate_distribution_drift` (lines 411-437):
the KL divergence of the smoothed normalized histograms; `none` models the
NaN result propagated from a zero-count histogram (see `normHist`). The
`except` branch returning 0.0 guards exceptions only, and no step of this
pipeline raises on numeric list inputs. -/
noncomputable def calculateDistributionDrift (currentData baselineData : List ℚ) :
    Option ℝ :=
  match normHist currentData, normHist baselineData with
  | some c, some b => some (klDiv c b)
  | _, _ => none

/-- Whether `float()` succeeds on a claim-data value. -/
def isNumVal : PyVal → Bool
  | .num _ => true
  | .nonNum _ => false

/-- A collector state whose buffer holds exactly 45 observations, all named
`fraud_probability` (so all classifying to the ML namespace), with
distinguishable values 0..44 in recording order. -/
def s45 : CollectorState :=
  ⟨[("fraud_probability", (List.range 45).map
      (fun i => ⟨"fraud_probability", (i : ℚ), "None", 0, []⟩))], [], []⟩

/-- A collector state with a single buffered observation. -/
def sampleState : CollectorState :=
  ⟨[("fraud_probability",
      [⟨"fraud_probability", 1 / 2, "None", 0, [("RiskLevel", "LOW")]⟩])], [], []⟩

/-! ### Helper lemmas -/

theorem lookupBuf_bufAppend_self (buf : Buffer) (n : String) (m : MetricData) :
    lookupBuf (bufAppend buf n m) n = lookupBuf buf n ++ [m] := by
  induction buf with
  | nil => simp [bufAppend, lookupBuf]
  | cons kv rest ih =>
    obtain ⟨k, l⟩ := kv
    by_cases hk : k = n
    · simp [bufAppend, lookupBuf, hk]
    · simp [bufAppend, lookupBuf, hk, ih]

theorem attemptCalls_snd (sink : String → List MetricData → Bool)
    (l : List (String × List MetricData)) :
    (attemptCalls sink l).2 = l.all (fun c => sink c.1 c.2) := by
  induction l with
  | nil => simp [attemptCalls]
  | cons c cs ih =>
    by_cases h : sink c.1 c.2 <;> simp [attemptCalls, h, ih]

theorem chunks20Go_mem : ∀ (fuel : Nat) (l : List MetricData),
    ∀ b ∈ chunks20Go fuel l, b.length ≤ 20 ∧ b ≠ [] := by
  intro fuel
  induction fuel with
  | zero =>
    intro l b hb
    cases l <;> simp [chunks20Go] at hb
  | succ n ih =>
    intro l b hb
    cases l with
    | nil => simp [chunks20Go] at hb
    | cons a t =>
      rw [chunks20Go] at hb
      rcases List.mem_cons.mp hb with rfl | hb
      · refine ⟨by simpa using List.length_take_le 20 (a :: t), ?_⟩
        simp [List.take_eq_nil_iff]
      · exact ih _ b hb

theorem chunks20Go_flatten : ∀ (fuel : Nat) (l : List MetricData), l.length ≤ fuel →
    (chunks20Go fuel l).flatten = l := by
  intro fuel
  induction fuel with
  | zero =>
    intro l h
    cases l with
    | nil => rfl
    | cons a t => simp at h
  | succ n ih =>
    intro l h
    cases l with
    | nil => rfl
    | cons a t =>
      rw [chunks20Go]
      rw [List.flatten_cons, ih _ (by simp at h ⊢; omega)]
      exact List.take_append_drop 20 (a :: t)

theorem chunks20_mem (l : List MetricData) :
    ∀ b ∈ chunks20 l, b.length ≤ 20 ∧ b ≠ [] := chunks20Go_mem l.length l

theorem chunks20_flatten (l : List MetricData) : (chunks20 l).flatten = l :=
  chunks20Go_flatten l.length l (Nat.le_refl _)

theorem mem_firstOccurGo (a : String) : ∀ (fuel : Nat) (l : List String), l.length ≤ fuel →
    (a ∈ firstOccurGo fuel l ↔ a ∈ l) := by
  intro fuel
  induction fuel with
  | zero =>
    intro l h
    cases l with
    | nil => simp [firstOccurGo]
    | cons b t => simp at h
  | succ n ih =>
    intro l h
    cases l with
    | nil => simp [firstOccurGo]
    | cons b t =>
      rw [firstOccurGo]
      have hlen : (t.filter (fun c => c ≠ b)).length ≤ n := by
        have := List.length_filter_le (fun c => decide (c ≠ b)) t
        simp at h
        omega
      by_cases hab : a = b
      · simp [hab]
      · simp only [List.mem_cons, ih _ hlen, List.mem_filter]
        constructor
        · rintro (rfl | ⟨ht, _⟩)
          · exact Or.inl rfl
          · exact Or.inr ht
        · rintro (rfl | ht)
          · exact Or.inl rfl
          · exact Or.inr ⟨ht, by simpa using hab⟩

theorem firstOccurGo_nodup : ∀ (fuel : Nat) (l : List String), l.length ≤ fuel →
    (firstOccurGo fuel l).Nodup := by
  intro fuel
  induction fuel with
  | zero =>
    intro l h
    cases l with
    | nil => simp [firstOccurGo]
    | cons b t => simp at h
  | succ n ih =>
    intro l h
    cases l with
    | nil => simp [firstOccurGo]
    | cons b t =>
      rw [firstOccurGo]
      have hlen : (t.filter (fun c => c ≠ b)).length ≤ n := by
        have := List.length_filter_le (fun c => decide (c ≠ b)) t
        simp at h
        omega
      refine List.nodup_cons.mpr ⟨?_, ih _ hlen⟩
      intro hmem
      have := (mem_firstOccurGo b n _ hlen).mp hmem
      rcases List.mem_filter.mp this with ⟨_, hbb⟩
      simp at hbb

theorem mem_firstOccur (a : String) (l : List String) : a ∈ firstOccur l ↔ a ∈ l :=
  mem_firstOccurGo a l.length l (Nat.le_refl _)

theorem firstOccur_nodup (l : List String) : (firstOccur l).Nodup :=
  firstOccurGo_nodup l.length l (Nat.le_refl _)

theorem filter_flatMap_groups (nss : List String) (g : String → List MetricData)
    (ns0 : String) (hn : nss.Nodup) :
    ((nss.flatMap (fun ns => (chunks20 (g ns)).map (fun batch => (ns, batch)))).filter
        (fun c => c.1 = ns0)).flatMap (fun c => c.2) =
      if ns0 ∈ nss then g ns0 else [] := by
  induction nss with
  | nil => simp
  | cons a t ih =>
    rw [List.flatMap_cons, List.filter_append, List.flatMap_append]
    rcases List.nodup_cons.mp hn with ⟨ha, ht⟩
    by_cases hcase : a = ns0
    · subst hcase
      have h1 : ((chunks20 (g a)).map (fun batch => (a, batch))).filter (fun c => c.1 = a) =
          (chunks20 (g a)).map (fun batch => (a, batch)) := by
        apply List.filter_eq_self.mpr
        intro c hc
        rcases List.mem_map.mp hc with ⟨b, _, rfl⟩
        simp
      rw [h1, ih ht, if_neg ha, if_pos (List.mem_cons_self a t)]
      have hid : ∀ (ls : List (List MetricData)), ls.flatMap (fun x => x) = ls.flatten := by
        intro ls
        induction ls with
        | nil => simp
        | cons x xs ihx => simp [ihx]
      have h2 : ((chunks20 (g a)).map (fun batch => (a, batch))).flatMap (fun c => c.2) =
          (chunks20 (g a)).flatten := by
        rw [List.flatMap_map]
        exact hid _
      rw [h2, chunks20_flatten]
      simp
    · have h1 : ((chunks20 (g a)).map (fun batch => (a, batch))).filter (fun c => c.1 = ns0) =
          [] := by
        apply List.filter_eq_nil_iff.mpr
        intro c hc
        rcases List.mem_map.mp hc with ⟨b, _, rfl⟩
        simp [hcase]
      rw [h1, ih ht]
      by_cases hmem : ns0 ∈ t
      · rw [if_pos hmem, if_pos (List.mem_cons_of_mem a hmem)]
        simp
      · have hnotin : ns0 ∉ a :: t := by
          intro h
          rcases List.mem_cons.mp h with rfl | h
          · exact hcase rfl
          · exact hmem h
        rw [if_neg hmem, if_neg hnotin]
        simp

theorem takeLast_length_le (m : Nat) (l : List α) : (takeLast m l).length ≤ m := by
  simp [takeLast]
  omega

theorem takeLast_of_length_le (m : Nat) (l : List α) (h : l.length ≤ m) :
    takeLast m l = l := by
  simp [takeLast, Nat.sub_eq_zero_of_le h]

theorem takeLast_drop (l : List α) (k m : Nat) (h : k + m ≤ l.length) :
    takeLast m (l.drop k) = takeLast m l := by
  unfold takeLast
  rw [List.drop_drop, List.length_drop]
  congr 1
  omega

theorem takeLast_append_takeLast (m : Nat) (a b : List α) :
    takeLast m (takeLast m a ++ b) = takeLast m (a ++ b) := by
  by_cases h : a.length ≤ m
  · rw [takeLast_of_length_le m a h]
  · have hk : a.length - m ≤ a.length := Nat.sub_le _ _
    have hsplit : takeLast m a ++ b = (a ++ b).drop (a.length - m) := by
      unfold takeLast
      rw [List.drop_append_of_le_length hk]
    rw [hsplit, takeLast_drop]
    rw [List.length_append]
    omega

theorem foldl_pushMax (m : Nat) : ∀ (vs xs : List ℚ), xs.length ≤ m →
    vs.foldl (pushMax m) xs = takeLast m (xs ++ vs) := by
  intro vs
  induction vs with
  | nil => intro xs h; simp [takeLast_of_length_le m xs h]
  | cons v t ih =>
    intro xs h
    rw [List.foldl_cons]
    rw [ih (pushMax m xs v) (takeLast_length_le m _)]
    unfold pushMax
    rw [takeLast_append_takeLast]
    simp

theorem featureLoop_series (claimData : List (String × PyVal)) (ts : Nat) :
    ∀ (fs : List String) (s : CollectorState),
      (featureLoop claimData ts fs s).2.fraud_probabilities = s.fraud_probabilities ∧
      (featureLoop claimData ts fs s).2.confidences = s.confidences := by
  intro fs
  induction fs with
  | nil => intro s; exact ⟨rfl, rfl⟩
  | cons f ft ih =>
    intro s
    unfold featureLoop
    cases claimData.lookup f with
    | none => exact ih s
    | some v =>
      cases v with
      | num q => exact ih _
      | nonNum tag => exact ⟨rfl, rfl⟩

theorem featureLoop_ok (claimData : List (String × PyVal)) (ts : Nat)
    (hnum : ∀ f ∈ keyFeatures, ∀ v, claimData.lookup f = some v → isNumVal v = true) :
    ∀ (fs : List String), (∀ f ∈ fs, f ∈ keyFeatures) →
      ∀ (s : CollectorState), (featureLoop claimData ts fs s).1 = Except.ok () := by
  intro fs
  induction fs with
  | nil => intro _ s; rfl
  | cons f ft ih =>
    intro hsub s
    unfold featureLoop
    cases hl : claimData.lookup f with
    | none => exact ih (fun g hg => hsub g (List.mem_cons_of_mem f hg)) s
    | some v =>
      have hv := hnum f (hsub f (List.mem_cons_self f ft)) v hl
      cases v with
      | num q => exact ih (fun g hg => hsub g (List.mem_cons_of_mem f hg)) _
      | nonNum tag => simp [isNumVal] at hv

theorem smoothedHist_pos (data : List ℚ) :
    ∀ y ∈ smoothedHist data, 0 < y := by
  intro y hy
  unfold smoothedHist at hy
  rcases List.mem_map.mp hy with ⟨k, hk, rfl⟩
  have h1 : (0 : ℚ) ≤ (k : ℚ) / (((histogramCounts data).sum : ℚ) * (1 / 10)) := by
    apply div_nonneg
    · exact_mod_cast Nat.zero_le k
    · have h2 : (0 : ℚ) ≤ ((histogramCounts data).sum : ℚ) := by
        exact_mod_cast Nat.zero_le _
      linarith
  have h3 : (0 : ℚ) < driftEpsilon := by norm_num [driftEpsilon]
  linarith

theorem smoothedHist_ne_nil (data : List ℚ) : smoothedHist data ≠ [] := by
  have hlen : (smoothedHist data).length = 10 := by
    simp [smoothedHist, histogramCounts]
  intro h
  rw [h] at hlen
  simp at hlen

theorem normHist_pos (data : List ℚ) (h : (histogramCounts data).sum ≠ 0) :
    ∃ c, normHist data = some c ∧ ∀ x ∈ c, 0 < x := by
  refine ⟨_, by rw [normHist, if_neg h], ?_⟩
  intro x hx
  rcases List.mem_map.mp hx with ⟨y, hy, rfl⟩
  have hspos : 0 < (smoothedHist data).sum :=
    List.sum_pos _ (smoothedHist_pos data) (smoothedHist_ne_nil data)
  exact div_pos (smoothedHist_pos data y hy) hspos

theorem klDiv_self (c : List ℚ) (h : ∀ x ∈ c, x ≠ 0) : klDiv c c = 0 := by
  induction c with
  | nil => simp [klDiv]
  | cons a t ih =>
    have ha : ((a : ℚ) : ℝ) ≠ 0 := by
      exact_mod_cast h a (List.mem_cons_self a t)
    have hterm : ((a : ℚ) : ℝ) * Real.log (((a : ℚ) : ℝ) / ((a : ℚ) : ℝ)) = 0 := by
      rw [div_self ha, Real.log_one, mul_zero]
    unfold klDiv at ih ⊢
    rw [List.zipWith_cons_cons, List.sum_cons, hterm, zero_add]
    exact ih (fun x hx => h x (List.mem_cons_of_mem a hx))

/-! ### Claim theorems -/

/-- C1 (counterexample): the claim "after flush_metrics() returns, the
buffer is empty regardless of whether all namespace batches were emitted
successfully" is false: flushing a one-observation buffer against a sink
that fails leaves the buffer non-empty. -/
theorem C1_counterexample :
    (flushMetrics (fun _ _ => false) sampleState).1.metric_buffer ≠ [] := by decide

/-- C1 (amended): the buffer ends empty iff it was already empty or every
sink call of the flush succeeds; when some sink call fails, the collector
state — buffer included — is unchanged (`metric_buffer.clear()` sits after
the send loop inside the try block, so a sink exception skips it). -/
theorem C1_flush_clears_iff_success :
    ∀ (sink : String → List MetricData → Bool) (s : CollectorState),
    ((flushMetrics sink s).1.metric_buffer = [] ↔
      (s.metric_buffer = [] ∨ ∀ c ∈ allCalls s, sink c.1 c.2 = true)) ∧
    ((∃ c ∈ allCalls s, sink c.1 c.2 = false) → (flushMetrics sink s).1 = s) := by
  intro sink s
  by_cases he : s.metric_buffer.isEmpty
  · have hb : s.metric_buffer = [] := List.isEmpty_iff.mp he
    have hf : flushMetrics sink s = (s, []) := by simp [flushMetrics, he]
    rw [hf]
    exact ⟨⟨fun _ => Or.inl hb, fun _ => hb⟩, fun _ => rfl⟩
  · have hb : s.metric_buffer ≠ [] := by
      intro h
      rw [h] at he
      exact he rfl
    have hf : flushMetrics sink s =
        (if (attemptCalls sink (allCalls s)).2 then { s with metric_buffer := [] } else s,
         (attemptCalls sink (allCalls s)).1) := by
      simp [flushMetrics, he]
    by_cases hall : (allCalls s).all (fun c => sink c.1 c.2) = true
    · have h2 : (attemptCalls sink (allCalls s)).2 = true := by
        rw [attemptCalls_snd]; exact hall
      rw [hf, h2, if_pos rfl]
      constructor
      · exact ⟨fun _ => Or.inr (fun c hc => List.all_eq_true.mp hall c hc), fun _ => rfl⟩
      · rintro ⟨c, hc, hfc⟩
        have := List.all_eq_true.mp hall c hc
        rw [this] at hfc
        cases hfc
    · have h2 : (attemptCalls sink (allCalls s)).2 = false := by
        rw [attemptCalls_snd]; exact Bool.eq_false_iff.mpr hall
      rw [hf, h2, if_neg Bool.false_ne_true]
      constructor
      · constructor
        · intro hbe
          exact absurd hbe hb
        · rintro (h | h)
          · exact absurd h hb
          · exact absurd (List.all_eq_true.mpr h) hall
      · intro _
        rfl

/-- C1 (witness): the amended theorem applied to a concrete failing sink
and a concrete non-empty buffer. -/
theorem C1_flush_clears_iff_success_witness :
    (∃ c ∈ allCalls sampleState,
      (fun (_ : String) (_ : List MetricData) => false) c.1 c.2 = false) ∧
    (flushMetrics (fun _ _ => false) sampleState).1 = sampleState :=
  ⟨by decide,
   (C1_flush_clears_iff_success (fun _ _ => false) sampleState).2 (by decide)⟩

/-- C2 (counterexample): the claim "every public Collector operation —
in particular collect_prediction_metrics — returns without raising" is
false: a claim_data dict holding a non-numeric value for the monitored
feature `age` makes `float()` raise ValueError, and no handler on the path
catches it. -/
theorem C2_counterexample :
    (collectPredictionMetrics initState ⟨none, none, none, none⟩ 1
        [("age", PyVal.nonNum "NA")] 0).1 = Except.error PyErr.valueError := rfl

/-- C2 (amended): collect_prediction_metrics returns normally whenever
every monitored key feature present in claim_data carries a
float-convertible value; a non-convertible value raises ValueError to the
caller (the swallow-and-log boundary exists only in operations with their
own try/except, such as flush_metrics and collect_cost_metrics). -/
theorem C2_no_raise_on_numeric_features :
    ∀ (s : CollectorState) (pd : PredData) (pt : ℚ)
      (cd : List (String × PyVal)) (ts : Nat),
    (∀ f ∈ keyFeatures, ∀ v ∈ cd.lookup f, isNumVal v = true) →
    (collectPredictionMetrics s pd pt cd ts).1 = Except.ok () := by
  intro s pd pt cd ts hnum
  unfold collectPredictionMetrics collectFeatureMetrics
  exact featureLoop_ok cd ts
    (fun f hf v hv => hnum f hf v hv) keyFeatures (fun f hf => hf) _

/-- C2 (witness): the amended theorem applied to a concrete numeric
claim_data. -/
theorem C2_no_raise_on_numeric_features_witness :
    (∀ f ∈ keyFeatures, ∀ v ∈ [("age", PyVal.num 35)].lookup f, isNumVal v = true) ∧
    (collectPredictionMetrics initState ⟨none, none, none, none⟩ 1
        [("age", PyVal.num 35)] 0).1 = Except.ok () :=
  ⟨by decide,
   C2_no_raise_on_numeric_features initState ⟨none, none, none, none⟩ 1
     [("age", PyVal.num 35)] 0 (by decide)⟩

/-- C3 (counterexample): the claim "each RollingSeries has fixed capacity
W = 100: its length is at most 100 at all times" is false: after 150
collect_prediction_metrics calls on a fresh collector, the
fraud_probabilities series holds 150 values. -/
theorem C3_counterexample :
    ¬ (((List.range 150).foldl
        (fun s _ => (collectPredictionMetrics s ⟨none, none, none, none⟩ 1 [] 0).2)
        initState).fraud_probabilities.length ≤ 100) := by decide

/-- C3 (amended): the two rolling series are deques with capacity 1000
(`deque(maxlen=1000)`; 100 is only the drift read-window
`drift_window_size`): each prediction-metrics call pushes one value onto
each series with capacity-1000 FIFO eviction, the length never exceeds
1000, and after inserting at least 1000 values the series holds exactly
the 1000 most recently inserted values in order. -/
theorem C3_series_capacity_1000 :
    (∀ (s : CollectorState) (pd : PredData) (pt : ℚ)
       (cd : List (String × PyVal)) (ts : Nat),
      (collectPredictionMetrics s pd pt cd ts).2.fraud_probabilities =
        pushMax 1000 s.fraud_probabilities (pd.fraud_probability.getD 0) ∧
      (collectPredictionMetrics s pd pt cd ts).2.confidences =
        pushMax 1000 s.confidences (pd.confidence.getD 0)) ∧
    (∀ (init vs : List ℚ), init.length ≤ 1000 →
      (vs.foldl (pushMax 1000) init).length ≤ 1000 ∧
      (1000 ≤ vs.length → vs.foldl (pushMax 1000) init = takeLast 1000 vs)) := by
  constructor
  · intro s pd pt cd ts
    unfold collectPredictionMetrics collectFeatureMetrics
    exact ⟨(featureLoop_series cd ts keyFeatures _).1,
           (featureLoop_series cd ts keyFeatures _).2⟩
  · intro init vs hinit
    have hfold := foldl_pushMax 1000 vs init hinit
    constructor
    · rw [hfold]
      exact takeLast_length_le 1000 _
    · intro hvs
      rw [hfold]
      rw [show takeLast 1000 (init ++ vs) = takeLast 1000 ((init ++ vs).drop init.length) by
        rw [takeLast_drop]
        rw [List.length_append]
        omega]
      rw [List.drop_left]

/-- C3 (witness): the amended theorem applied to the empty series and 1050
insertions. -/
theorem C3_series_capacity_1000_witness :
    (([] : List ℚ).length ≤ 1000) ∧
    ((List.replicate 1050 (0 : ℚ)).foldl (pushMax 1000) []).length ≤ 1000 ∧
    (1000 ≤ (List.replicate 1050 (0 : ℚ)).length) ∧
    (List.replicate 1050 (0 : ℚ)).foldl (pushMax 1000) [] =
      takeLast 1000 (List.replicate 1050 (0 : ℚ)) :=
  ⟨by decide,
   (C3_series_capacity_1000.2 [] _ (by decide)).1,
   by decide,
   (C3_series_capacity_1000.2 [] _ (by decide)).2 (by decide)⟩

/-- C4: a flush partitions the buffered observations into disjoint groups
by namespace and emits, per namespace, consecutive batches of at most 20
observations whose concatenation restores the group in buffer order; on a
buffer of 45 observations all classifying to one namespace, exactly 3 sink
calls occur with batch sizes 20, 20, 5 in original order. -/
theorem C4_flush_batching :
    (∀ (s : CollectorState), ∀ c ∈ allCalls s, c.2.length ≤ 20 ∧ c.2 ≠ []) ∧
    (∀ (s : CollectorState) (ns : String),
      ((allCalls s).filter (fun c => c.1 = ns)).flatMap (fun c => c.2) =
        (bufferedMetrics s).filter (fun m => getMetricNamespace m.name = ns)) ∧
    (flushMetrics (fun _ _ => true) s45).2.map (fun c => (c.1, c.2.length)) =
      [("FraudDetection/ML", 20), ("FraudDetection/ML", 20), ("FraudDetection/ML", 5)] ∧
    (flushMetrics (fun _ _ => true) s45).2.flatMap (fun c => c.2) = bufferedMetrics s45 := by
  refine ⟨?_, ?_, by decide, by decide⟩
  · intro s c hc
    unfold allCalls at hc
    rcases List.mem_flatMap.mp hc with ⟨ns, _, hcmem⟩
    rcases List.mem_map.mp hcmem with ⟨b, hb, rfl⟩
    exact chunks20_mem _ b hb
  · intro s ns
    unfold allCalls
    rw [filter_flatMap_groups _ _ _ (firstOccur_nodup _)]
    by_cases hmem : ns ∈ firstOccur ((bufferedMetrics s).map (fun m => getMetricNamespace m.name))
    · rw [if_pos hmem]
    · rw [if_neg hmem]
      have hns : ns ∉ (bufferedMetrics s).map (fun m => getMetricNamespace m.name) := by
        intro h
        exact hmem ((mem_firstOccur ns _).mpr h)
      symm
      apply List.filter_eq_nil_iff.mpr
      intro m hm hdec
      apply hns
      rcases of_decide_eq_true hdec with h
      exact List.mem_map.mpr ⟨m, hm, h⟩

/-- C4 (witness): the universal batch bound applied to the first batch of
the concrete 45-observation buffer. -/
theorem C4_flush_batching_witness :
    (("FraudDetection/ML", (bufferedMetrics s45).take 20) ∈ allCalls s45) ∧
    ((bufferedMetrics s45).take 20).length ≤ 20 ∧
    ("FraudDetection/ML", (bufferedMetrics s45).take 20).2 ≠ [] :=
  ⟨by decide,
   (C4_flush_batching.1 s45 ("FraudDetection/ML", (bufferedMetrics s45).take 20) (by decide)).1,
   (C4_flush_batching.1 s45 ("FraudDetection/ML", (bufferedMetrics s45).take 20) (by decide)).2⟩

/-- C5: the namespace classifier equals first-match-wins evaluation of the
ordered rule table (api_ → API; prediction_/fraud_ → ML;
business_/claims_ → Business; cost_ prefix or cost substring → Cost;
security_ → Security; else Custom), and classifies "cost_per_prediction"
to Cost and "api_cost_tracker" to API. -/
theorem C5_classifier_first_match :
    (∀ n, getMetricNamespace n = firstMatchNs n) ∧
    getMetricNamespace "cost_per_prediction" = "FraudDetection/Cost" ∧
    getMetricNamespace "api_cost_tracker" = "FraudDetection/API" := by
  refine ⟨?_, by decide, by decide⟩
  intro n
  cases h1 : strStarts n "api_" <;> cases h2 : strStarts n "prediction_" <;>
    cases h3 : strStarts n "fraud_" <;> cases h4 : strStarts n "business_" <;>
    cases h5 : strStarts n "claims_" <;> cases h6 : strStarts n "cost_" <;>
    cases h7 : containsSub n "cost" <;> cases h8 : strStarts n "security_" <;>
    simp [getMetricNamespace, firstMatchNs, nsRules, List.find?,
      h1, h2, h3, h4, h5, h6, h7, h8]

/-- C6: the anomaly check appends to the `business_anomaly_detected`
buffer entry exactly one FraudRate observation iff the fraud rate leaves
[0.05, 0.25] (Severity HIGH iff above 0.4, else MEDIUM) and exactly one
LowConfidence observation (Severity MEDIUM) iff the average confidence is
below 0.6; the rules are independent, may both fire, and the result does
not depend on avg_fraud_prob. -/
theorem C6_anomaly_rules :
    ∀ (fr p p2 c : ℚ) (ts : Nat) (s : CollectorState),
    lookupBuf (checkBusinessAnomalies s fr p c ts).metric_buffer "business_anomaly_detected" =
      lookupBuf s.metric_buffer "business_anomaly_detected"
      ++ (if (0.05 : ℚ) ≤ fr ∧ fr ≤ (0.25 : ℚ) then []
          else [⟨"business_anomaly_detected", 1, "Count", ts,
                 [("AnomalyType", "FraudRate"),
                  ("Severity", if fr > (0.4 : ℚ) then "HIGH" else "MEDIUM")]⟩])
      ++ (if c < (0.6 : ℚ) then
            [⟨"business_anomaly_detected", 1, "Count", ts,
              [("AnomalyType", "LowConfidence"), ("Severity", "MEDIUM")]⟩]
          else []) ∧
    checkBusinessAnomalies s fr p c ts = checkBusinessAnomalies s fr p2 c ts := by
  intro fr p p2 c ts s
  refine ⟨?_, rfl⟩
  unfold checkBusinessAnomalies
  split_ifs with h1 h2 <;>
    simp_all [recordMetric, lookupBuf_bufAppend_self]

/-- C7: contrary to the claim that the drift computation returns 0.0 on an
empty current or baseline sample, it returns NaN (modelled `none`): the numpy
`density=True` normalization divides by the zero total count, which emits a
warning rather than raising, so the except handler returning 0.0 is never
reached. -/
theorem C7_empty_sample_not_zero :
    (∀ baseline : List ℚ, calculateDistributionDrift [] baseline = none) ∧
    (∀ current : List ℚ, calculateDistributionDrift current [] = none) := by
  have hnil : normHist ([] : List ℚ) = none := rfl
  constructor
  · intro baseline
    unfold calculateDistributionDrift
    rw [hnil]
  · intro current
    unfold calculateDistributionDrift
    rw [hnil]
    cases normHist current <;> rfl

/-- C8: for any non-empty sample X of values strictly inside (0,1)
occupying at least two distinct bins, the drift of X against itself is a
real number of absolute value within the smoothing-constant tolerance
(indeed exactly 0, because the two smoothed normalized histograms
coincide). -/
theorem C8_drift_self_zero :
    ∀ X : List ℚ, X ≠ [] → (∀ x ∈ X, 0 < x ∧ x < 1) →
    (∃ i j, i < 10 ∧ j < 10 ∧ i ≠ j ∧
      0 < X.countP (binPred i) ∧ 0 < X.countP (binPred j)) →
    ∃ r, calculateDistributionDrift X X = some r ∧ |r| ≤ ((driftEpsilon : ℚ) : ℝ) := by
  intro X hne hrange htwo
  rcases htwo with ⟨i, j, hi, hj, hij, hci, hcj⟩
  have hsum : (histogramCounts X).sum ≠ 0 := by
    intro h0
    have hall := List.sum_eq_zero_iff.mp h0
    have hmem : X.countP (binPred i) ∈ histogramCounts X := by
      unfold histogramCounts
      exact List.mem_map.mpr ⟨i, List.mem_range.mpr hi, rfl⟩
    have := hall _ hmem
    omega
  rcases normHist_pos X hsum with ⟨c, hc, hcpos⟩
  refine ⟨0, ?_, by norm_num [driftEpsilon]⟩
  unfold calculateDistributionDrift
  rw [hc]
  show some (klDiv c c) = some 0
  rw [klDiv_self c (fun x hx => ne_of_gt (hcpos x hx))]

/-- C8 (witness): the theorem applied to the concrete sample
[0.15, 0.35], which occupies bins 1 and 3. -/
theorem C8_drift_self_zero_witness :
    (([mkRat 3 20, mkRat 7 20] : List ℚ) ≠ [] ∧
     (∀ x ∈ [mkRat 3 20, mkRat 7 20], 0 < x ∧ x < 1) ∧
     (0 < List.countP (binPred 1) [mkRat 3 20, mkRat 7 20] ∧
      0 < List.countP (binPred 3) [mkRat 3 20, mkRat 7 20])) ∧
    ∃ r, calculateDistributionDrift [mkRat 3 20, mkRat 7 20] [mkRat 3 20, mkRat 7 20] = some r ∧
      |r| ≤ ((driftEpsilon : ℚ) : ℝ) :=
  ⟨⟨by decide, by decide, by decide, by decide⟩,
   C8_drift_self_zero [mkRat 3 20, mkRat 7 20] (by decide) (by decide)
     ⟨1, 3, by decide, by decide, by decide, by decide, by decide⟩⟩

/-- C9: collect_business_metrics is always a frame-preserving no-op that
never reaches the anomaly check: `_get_recent_predictions` unconditionally
returns the empty list, so the empty-window early return fires for every
time period. -/
theorem C9_business_metrics_noop :
    ∀ (s : CollectorState) (timePeriodHours : Int) (ts : Nat),
    collectBusinessMetrics s timePeriodHours ts = (s, false) := by
  intro s timePeriodHours ts
  rfl

/-- C10: collect_cost_metrics never changes the collector state and records
no observation: evaluating the unimported name `os` raises NameError inside
the try block, before any metric is recorded, and the except handler only
logs it. -/
theorem C10_cost_metrics_noop :
    ∀ (s : CollectorState) (endpoint : EndpointInfo) (ts : Nat),
    collectCostMetrics s endpoint ts = s := by
  intro s endpoint ts
  rfl

end FraudMetrics
